import Mathlib

/-!
A shallow embedding of the kube2sky synchronization engine
(`hack/images/dns/kube2sky/kube2sky.go`): the record projector
(`buildNameString`, `addDNS`, `removeDNS`), the bounded-retry mutator
(`mutateEtcdOrDie`) and the watch-session event loop (`watchLoop`,
`sendUpdate`, `startWatching`), together with theorems about them.

External collaborators (the etcd client, the skydns message encoding and
the kubernetes client library) are modelled by their contracts: the
downstream store is a key/value map keyed by the destination record name,
and registry sessions are driven by explicit event lists.
-/

/-- A source service entity, flattening the fields of `kapi.Service` that
kube2sky reads: `Name`, `Namespace`, `Spec.PortalIP`, `Spec.Port` and
`ResourceVersion`. -/
structure Service where
  Name : String
  Namespace : String
  PortalIP : String
  Port : Int
  ResourceVersion : String
deriving DecidableEq, Repr

/-- The skydns record payload built by `addDNS` (`skymsg.Service`). -/
structure SkyService where
  Host : String
  Port : Int
  Priority : Nat
  Weight : Nat
  Ttl : Nat
deriving DecidableEq, Repr

/-- Modelled from the spec: `kapi.IsServiceIPSet` is part of the external
kubernetes library; per the spec an entity lacks a resolvable
cluster-internal address exactly when no portal IP is assigned. -/
def IsServiceIPSet (s : Service) : Bool :=
  s.PortalIP ≠ ""

/-- The function `buildNameString`: `fmt.Sprintf("%s.%s.%s.", service, namespace, domain)`. -/
def buildNameString (service namespace' domain : String) : String :=
  service ++ "." ++ namespace' ++ "." ++ domain ++ "."

/-- The downstream store, keyed by destination record name.  The skydns
path encoding (`skymsg.Path`) is an external wire encoding the spec puts
out of scope; records are keyed directly by the destination name. -/
def Store := List (String × SkyService)

/-- A set overwrites the record under the key (etcd `Set`): the new pair
shadows any earlier pair with the same key. -/
def setStore (st : Store) (k : String) (v : SkyService) : Store :=
  (k, v) :: st

/-- Modelled from the spec: the etcd client's `Delete` removes whatever is
under the key; per the spec delete is idempotent and the absence of the
record is not an error. -/
def delStore (st : Store) (k : String) : Store :=
  st.filter (fun p => p.1 ≠ k)

/-- Reading the store: the most recently set record under the key. -/
def lookupStore : Store → String → Option SkyService
  | [], _ => none
  | (k', v) :: rest, k => if k' = k then some v else lookupStore rest k

/-- The function `removeDNS`: delete the record under the destination key.  The
spec-modelled delete succeeds whether or not a record is present
(transient transport failures are modelled separately, in the abstract
mutator attempts). -/
def removeDNS (record : String) (st : Store) : Except String Store :=
  Except.ok (delStore st record)

/-- The function `addDNS`: skip headless services, otherwise set the skydns record
`{Host, Port, Priority 10, Weight 10, Ttl 30}` under the destination key. -/
def addDNS (record : String) (service : Service) (st : Store) : Except String Store :=
  if !IsServiceIPSet service then
    Except.ok st
  else
    Except.ok (setStore st record
      { Host := service.PortalIP, Port := service.Port,
        Priority := 10, Weight := 10, Ttl := 30 })

/-- Whether a mutation returned without error. -/
def exceptIsOk : Except String Store → Bool
  | Except.ok _ => true
  | Except.error _ => false

/-- One invocation of a mutator closure: whether it succeeded, and how
long it ran (milliseconds). -/
structure Attempt where
  ok : Bool
  dur : Nat
deriving DecidableEq, Repr

/-- The observable outcome of `mutateEtcdOrDie`: normal return or fatal
process termination (`log.Fatalf`), with the number of invocations made. -/
inductive MutateResult where
  | ok (attempts : Nat)
  | fatal (attempts : Nat)
deriving DecidableEq, Repr

/-- The retry loop of `mutateEtcdOrDie`.  `deadline` is
`etcd_mutation_timeout` in milliseconds; `time` is the wall-clock elapsed
since the timer was armed; `attempts` counts invocations so far.  At the
top of each iteration the `select` takes the timeout branch exactly when
the deadline has elapsed; otherwise one attempt runs to completion and a
failure is followed by the fixed 50 ms sleep. -/
def mutateLoop (deadline : Nat) (mutator : Nat → Attempt) (attempts time : Nat) :
    MutateResult :=
  if deadline ≤ time then
    MutateResult.fatal attempts
  else
    let a := mutator attempts
    if a.ok then
      MutateResult.ok (attempts + 1)
    else
      mutateLoop deadline mutator (attempts + 1) (time + a.dur + 50)
termination_by deadline - time
decreasing_by omega

/-- The function `mutateEtcdOrDie`: arm the timer, then retry from attempt 0. -/
def mutateEtcdOrDie (deadline : Nat) (mutator : Nat → Attempt) : MutateResult :=
  mutateLoop deadline mutator 0 0

/-- Wall-clock elapsed at the top of iteration `i`: the durations of the
first `i` (failing) attempts plus the fixed 50 ms sleep after each. -/
def checkTime (mutator : Nat → Attempt) : Nat → Nat
  | 0 => 0
  | i + 1 => checkTime mutator i + (mutator i).dur + 50

/-- The operation types carried on the update channel. -/
inductive operation where
  | SetServices
  | AddService
  | RemoveService
deriving DecidableEq, Repr

/-- The type `serviceUpdate`: an operation on services, sent on the channel. -/
structure serviceUpdate where
  Services : List Service
  Op : operation
deriving DecidableEq, Repr

/-- The type of `kwatch.EventType`: the recognized types plus any other string value. -/
inductive EventType where
  | Added
  | Modified
  | Deleted
  | Error
  | Other (s : String)
deriving DecidableEq, Repr

/-- A structured `kapi.Status` object carried by a recoverable error event. -/
structure KStatus where
  Message : String
deriving DecidableEq, Repr

/-- The dynamic object of a registry event: a structured status, a service,
or anything else (the two type assertions in `watchLoop`). -/
inductive EventObject where
  | status (s : KStatus)
  | svc (s : Service)
  | other
deriving DecidableEq, Repr

/-- A registry watch event (`kwatch.Event`); the Go field `Type` is spelt
`Type'` since `Type` is reserved in Lean. -/
structure Event where
  Type' : EventType
  Object : EventObject
deriving DecidableEq, Repr

/-- What one iteration of the `watchLoop` select body does with an event:
return (closing the channel), crash the process, emit an update and adopt
a new resumption token, or silently continue. -/
inductive StepResult where
  | terminate
  | fatal
  | emit (u : serviceUpdate) (rv : String)
  | skip
deriving DecidableEq, Repr

/-- The function `sendUpdate`: adopt the service's resource version as the token, then
emit per event type; an unrecognized type is fatal (`log.Fatalf`). -/
def sendUpdate (t : EventType) (s : Service) : StepResult :=
  match t with
  | EventType.Added => StepResult.emit ⟨[s], operation.AddService⟩ s.ResourceVersion
  | EventType.Modified => StepResult.emit ⟨[s], operation.AddService⟩ s.ResourceVersion
  | EventType.Deleted => StepResult.emit ⟨[s], operation.RemoveService⟩ s.ResourceVersion
  | _ => StepResult.fatal

/-- The body of `watchLoop`'s event case: an `Error` event returns if the
object is a structured status and is fatal otherwise; a non-`Error` event
is handed to `sendUpdate` when its object is a service and is silently
skipped otherwise. -/
def watchStep (ev : Event) : StepResult :=
  if ev.Type' = EventType.Error then
    match ev.Object with
    | EventObject.status _ => StepResult.terminate
    | _ => StepResult.fatal
  else
    match ev.Object with
    | EventObject.svc s => sendUpdate ev.Type' s
    | _ => StepResult.skip

/-- The successive resumption-token values after each processed event of a
session, stopping where the session terminates or the process dies. -/
def tokenSteps : List Event → String → List String
  | [], _ => []
  | e :: rest, rv =>
    match watchStep e with
    | StepResult.terminate => []
    | StepResult.fatal => []
    | StepResult.skip => rv :: tokenSteps rest rv
    | StepResult.emit _ v => v :: tokenSteps rest v

/-- The resumption-token trace of a session: the token before processing,
then its value after each processed event. -/
def tokenTrace (events : List Event) (rv : String) : List String :=
  rv :: tokenSteps events rv

/-- The resource versions of the service events a session processes, in
order, up to session termination. -/
def serviceVersions : List Event → List String
  | [] => []
  | e :: rest =>
    match watchStep e with
    | StepResult.terminate => []
    | StepResult.fatal => []
    | StepResult.skip => serviceVersions rest
    | StepResult.emit _ v => v :: serviceVersions rest

/-- A registry accessor for one session: the result of `List()` (items and
resource version) and, per resumption token, the event stream `Watch`
delivers before closing the channel. -/
structure Registry where
  ListResult : Except String (List Service × String)
  WatchResult : String → Except String (List Event)

/-- The observable trace of one watch session: whether it called `List()`,
the updates sent on the channel, and whether it died fatally. -/
structure SessionTrace where
  listCalled : Bool
  updates : List serviceUpdate
  fatal : Bool
deriving DecidableEq, Repr

/-- Process a session's watch events in order: collect emitted updates and
thread the resumption token, stopping at termination or a fatal event. -/
def processEvents : List Event → String → List serviceUpdate × String × Bool
  | [], rv => ([], rv, false)
  | e :: rest, rv =>
    match watchStep e with
    | StepResult.terminate => ([], rv, false)
    | StepResult.fatal => ([], rv, true)
    | StepResult.skip => processEvents rest rv
    | StepResult.emit u v =>
      let r := processEvents rest v
      (u :: r.1, r.2.1, r.2.2)

/-- The function `watchLoop`: with an empty resumption token, call `List()` (failure
terminates the session), emit one `SetServices` update, adopt the listed
version; then `Watch` from the token and process the event stream. -/
def watchLoop (reg : Registry) (resourceVersion : String) : SessionTrace :=
  if resourceVersion.length = 0 then
    match reg.ListResult with
    | Except.error _ => ⟨true, [], false⟩
    | Except.ok (items, ver) =>
      match reg.WatchResult ver with
      | Except.error _ => ⟨true, [⟨items, operation.SetServices⟩], false⟩
      | Except.ok evs =>
        let r := processEvents evs ver
        ⟨true, ⟨items, operation.SetServices⟩ :: r.1, r.2.2⟩
  else
    match reg.WatchResult resourceVersion with
    | Except.error _ => ⟨false, [], false⟩
    | Except.ok evs =>
      let r := processEvents evs resourceVersion
      ⟨false, r.1, r.2.2⟩

/-- The function `startWatching`: every session starts with a freshly allocated empty
resumption token (`serviceVersion := ""`). -/
def startWatching (reg : Registry) : SessionTrace :=
  watchLoop reg ""

/-- The reconciliation loop in `main`: sessions are started one after
another, each through `startWatching`. -/
def runSessions (regs : List Registry) : List SessionTrace :=
  regs.map startWatching

/-! Helper lemmas shared by the claim theorems. -/

/-- Looking up a key after deleting it finds nothing. -/
theorem lookup_del (st : Store) (k : String) : lookupStore (delStore st k) k = none := by
  induction st with
  | nil => rfl
  | cons p rest ih =>
    by_cases h : p.1 = k
    · simpa [delStore, List.filter, h] using ih
    · simpa [delStore, List.filter, h, lookupStore] using ih

/-- Deleting a key twice is the same as deleting it once. -/
theorem del_del (st : Store) (k : String) : delStore (delStore st k) k = delStore st k := by
  simp [delStore, List.filter_filter]

/-- Looking up a key after setting it finds the record just set. -/
theorem lookup_set (st : Store) (k : String) (v : SkyService) :
    lookupStore (setStore st k v) k = some v := by
  simp [setStore, lookupStore]

/-- If every invocation of the mutator fails, every state of the retry loop
reaches the fatal branch within `deadline - time` more steps. -/
theorem mutateLoop_fatal_aux (d : Nat) (m : Nat → Attempt) (hm : ∀ n, (m n).ok = false) :
    ∀ fuel t a, d - t ≤ fuel → ∃ k, mutateLoop d m a t = MutateResult.fatal k := by
  intro fuel
  induction fuel with
  | zero =>
    intro t a h
    rw [mutateLoop]
    simp [Nat.le_of_sub_eq_zero (Nat.le_zero.mp h)]
  | succ n ih =>
    intro t a h
    rw [mutateLoop]
    by_cases hdt : d ≤ t
    · simp [hdt]
    · simp [hdt, hm a]
      exact ih (t + (m a).dur + 50) (a + 1) (by omega)

/-- Elapsed wall-clock contributed by the failing attempts with indices
`a, a + 1, …`, each followed by the fixed 50 ms sleep. -/
def sumFrom (m : Nat → Attempt) (a : Nat) : Nat → Nat
  | 0 => 0
  | i + 1 => (m a).dur + 50 + sumFrom m (a + 1) i

/-- Unfolding `sumFrom` from the right. -/
theorem sumFrom_succ (m : Nat → Attempt) :
    ∀ i a, sumFrom m a (i + 1) = sumFrom m a i + (m (a + i)).dur + 50 := by
  intro i
  induction i with
  | zero => intro a; simp [sumFrom]
  | succ n ih =>
    intro a
    rw [sumFrom, ih (a + 1)]
    rw [sumFrom]
    have e : a + 1 + n = a + (n + 1) := by omega
    rw [e]
    omega

/-- The check-time clock is `sumFrom` starting at attempt 0. -/
theorem checkTime_eq_sumFrom (m : Nat → Attempt) : ∀ i, checkTime m i = sumFrom m 0 i := by
  intro i
  induction i with
  | zero => rfl
  | succ n ih => rw [checkTime, sumFrom_succ, ih]; simp

/-- If the next `N` attempts fail, attempt `a + N` succeeds, and every
deadline check up to it happens strictly before the deadline, the retry
loop returns normally after exactly `N + 1` further invocations. -/
theorem mutateLoop_ok_aux (d : Nat) (m : Nat → Attempt) :
    ∀ N a t, (∀ i, i < N → (m (a + i)).ok = false) → (m (a + N)).ok = true →
      (∀ i, i ≤ N → t + sumFrom m a i < d) →
      mutateLoop d m a t = MutateResult.ok (a + N + 1) := by
  intro N
  induction N with
  | zero =>
    intro a t _ hok hlt
    have ht : t < d := by
      have := hlt 0 (Nat.le_refl 0)
      simpa [sumFrom] using this
    have hok' : (m a).ok = true := by simpa using hok
    rw [mutateLoop]
    simp [Nat.not_le.mpr ht, hok']
  | succ n ih =>
    intro a t hfail hok hlt
    have ht : t < d := by
      have := hlt 0 (Nat.zero_le _)
      simpa [sumFrom] using this
    have hfa : (m a).ok = false := by
      have := hfail 0 (Nat.succ_pos n)
      simpa using this
    rw [mutateLoop]
    simp [Nat.not_le.mpr ht, hfa]
    have h1 : ∀ i, i < n → (m (a + 1 + i)).ok = false := by
      intro i hi
      have := hfail (i + 1) (by omega)
      have e : a + (i + 1) = a + 1 + i := by omega
      rwa [e] at this
    have h2 : (m (a + 1 + n)).ok = true := by
      have e : a + (n + 1) = a + 1 + n := by omega
      rwa [e] at hok
    have h3 : ∀ i, i ≤ n → t + (m a).dur + 50 + sumFrom m (a + 1) i < d := by
      intro i hi
      have := hlt (i + 1) (by omega)
      simp [sumFrom] at this
      omega
    have := ih (a + 1) (t + (m a).dur + 50) h1 h2 h3
    rw [this]
    congr 1
    omega

/-- A session started on an empty resumption token always calls `List()`. -/
theorem watchLoop_empty_listCalled (reg : Registry) :
    (watchLoop reg "").listCalled = true := by
  rw [watchLoop]
  cases h1 : reg.ListResult with
  | error e => simp [h1]
  | ok p =>
    obtain ⟨items, ver⟩ := p
    cases h2 : reg.WatchResult ver with
    | error e => simp [h1, h2]
    | ok evs => simp [h1, h2]

/-- A mutator closure that fails on its first two invocations and succeeds
on the third, used to exercise the retry loop. -/
def flakyMutator : Nat → Attempt :=
  fun n => if n < 2 then ⟨false, 0⟩ else ⟨true, 0⟩

/-! The claim theorems. -/

/-- Claim C1: applying the Remove handling twice in succession is
idempotent.  The first `removeDNS` succeeds and leaves no record under the
destination key; the second `removeDNS` on the resulting store also
succeeds (absence of the record is not an error) and leaves the store
unchanged, and following it through `mutateEtcdOrDie` returns normally on
the first attempt with no fatal termination, for every positive deadline. -/
theorem removeDNS_idempotent (record : String) (st : Store) :
    ∃ st1, removeDNS record st = Except.ok st1 ∧
      lookupStore st1 record = none ∧
      removeDNS record st1 = Except.ok st1 ∧
      ∀ d, mutateEtcdOrDie (d + 1)
        (fun _ => ⟨exceptIsOk (removeDNS record st1), 0⟩) = MutateResult.ok 1 := by
  refine ⟨delStore st record, rfl, lookup_del st record, ?_, ?_⟩
  · rw [removeDNS, del_del]
  · intro d
    rw [mutateEtcdOrDie, mutateLoop]
    simp [removeDNS, exceptIsOk, del_del]

/-- Claim C2: if every invocation of the mutator closure fails,
`mutateEtcdOrDie` never returns normally: it reaches the fatal branch
(`log.Fatalf`) after finitely many attempts, for every deadline.  Totality
of the Lean model shows it does not hang indefinitely. -/
theorem mutateEtcdOrDie_fatal_on_persistent_failure (d : Nat) (m : Nat → Attempt)
    (hm : ∀ n, (m n).ok = false) :
    ∃ k, mutateEtcdOrDie d m = MutateResult.fatal k :=
  mutateLoop_fatal_aux d m hm d 0 0 (by omega)

/-- Witness for C2: a mutator that always fails, deadline 100 ms. -/
theorem mutateEtcdOrDie_fatal_on_persistent_failure_witness :
    (∀ n : Nat, ((fun _ => (⟨false, 0⟩ : Attempt)) n).ok = false) ∧
    ∃ k, mutateEtcdOrDie 100 (fun _ => (⟨false, 0⟩ : Attempt)) = MutateResult.fatal k :=
  ⟨fun _ => rfl,
   mutateEtcdOrDie_fatal_on_persistent_failure 100 (fun _ => ⟨false, 0⟩) (fun _ => rfl)⟩

/-- Claim C3: for every service entity with a portal IP set, the
projection writes under exactly the destination key
`<name>.<namespace>.<domain>.` (trailing dot included) a record whose
host is the entity's address, whose port is the entity's port, and whose
priority, weight and ttl are the constants 10, 10 and 30. -/
theorem addDNS_projection (s : Service) (domain : String) (st : Store)
    (h : IsServiceIPSet s = true) :
    buildNameString s.Name s.Namespace domain =
      s.Name ++ "." ++ s.Namespace ++ "." ++ domain ++ "." ∧
    ∃ st1, addDNS (buildNameString s.Name s.Namespace domain) s st = Except.ok st1 ∧
      lookupStore st1 (buildNameString s.Name s.Namespace domain) =
        some { Host := s.PortalIP, Port := s.Port,
               Priority := 10, Weight := 10, Ttl := 30 } := by
  refine ⟨rfl, setStore st (buildNameString s.Name s.Namespace domain)
    { Host := s.PortalIP, Port := s.Port, Priority := 10, Weight := 10, Ttl := 30 },
    ?_, ?_⟩
  · simp [addDNS, h]
  · exact lookup_set _ _ _

/-- Witness for C3: the spec's example entity
`{name: a, ns: default, addr: 10.0.0.5, port: 80}` with domain
`cluster.local` maps to key `a.default.cluster.local.` and record
`{host: 10.0.0.5, port: 80, priority: 10, weight: 10, ttl: 30}`. -/
theorem addDNS_projection_witness :
    IsServiceIPSet ⟨"a", "default", "10.0.0.5", 80, "1"⟩ = true ∧
    buildNameString "a" "default" "cluster.local" = "a.default.cluster.local." ∧
    ∃ st1, addDNS (buildNameString "a" "default" "cluster.local")
        ⟨"a", "default", "10.0.0.5", 80, "1"⟩ [] = Except.ok st1 ∧
      lookupStore st1 (buildNameString "a" "default" "cluster.local") =
        some { Host := "10.0.0.5", Port := 80, Priority := 10, Weight := 10, Ttl := 30 } := by
  have h : IsServiceIPSet ⟨"a", "default", "10.0.0.5", 80, "1"⟩ = true := by decide
  have := addDNS_projection ⟨"a", "default", "10.0.0.5", 80, "1"⟩ "cluster.local" [] h
  exact ⟨h, by decide, this.2⟩

/-- Claim C4: for a headless service entity (no portal IP set), `addDNS`
returns no error and leaves the store untouched — no record is created or
modified — and following it through `mutateEtcdOrDie` completes
successfully on the first attempt, for every positive deadline. -/
theorem addDNS_headless_noop (record : String) (s : Service) (st : Store)
    (h : IsServiceIPSet s = false) :
    addDNS record s st = Except.ok st ∧
    ∀ d, mutateEtcdOrDie (d + 1) (fun _ => ⟨exceptIsOk (addDNS record s st), 0⟩) =
      MutateResult.ok 1 := by
  have ha : addDNS record s st = Except.ok st := by simp [addDNS, h]
  refine ⟨ha, fun d => ?_⟩
  rw [mutateEtcdOrDie, mutateLoop]
  simp [ha, exceptIsOk]

/-- Witness for C4: a headless service with empty portal IP against the
empty store. -/
theorem addDNS_headless_noop_witness :
    IsServiceIPSet ⟨"h", "default", "", 0, "1"⟩ = false ∧
    (addDNS "h.default.cluster.local." ⟨"h", "default", "", 0, "1"⟩ [] = Except.ok [] ∧
     mutateEtcdOrDie 10 (fun _ => ⟨exceptIsOk
       (addDNS "h.default.cluster.local." ⟨"h", "default", "", 0, "1"⟩ []), 0⟩) =
       MutateResult.ok 1) := by
  have h : IsServiceIPSet ⟨"h", "default", "", 0, "1"⟩ = false := by decide
  have := addDNS_headless_noop "h.default.cluster.local." ⟨"h", "default", "", 0, "1"⟩ [] h
  exact ⟨h, this.1, this.2 9⟩

/-- Claim C5, counterexample: an event of unrecognized type whose object is
not a service entity — here type `Other "Bookmark"` carrying a structured
status — is silently skipped by the watch loop, not treated as fatal,
contradicting the claim that any event whose type is outside the
recognized set aborts the whole process. -/
theorem watchStep_unrecognized_nonservice_not_fatal :
    watchStep ⟨EventType.Other "Bookmark", EventObject.status ⟨"m"⟩⟩ = StepResult.skip ∧
    StepResult.skip ≠ StepResult.fatal := by
  constructor
  · rfl
  · simp

/-- Claim C5 as amended: an error event carrying a structured status only
terminates the session; an error event whose object is not a structured
status aborts the process fatally; an event of unrecognized type aborts
the process fatally when its object is a service entity, and is silently
skipped when its object is not a service entity. -/
theorem watchStep_error_handling (st : KStatus) (s : Service) (t : String) :
    watchStep ⟨EventType.Error, EventObject.status st⟩ = StepResult.terminate ∧
    watchStep ⟨EventType.Error, EventObject.svc s⟩ = StepResult.fatal ∧
    watchStep ⟨EventType.Error, EventObject.other⟩ = StepResult.fatal ∧
    watchStep ⟨EventType.Other t, EventObject.svc s⟩ = StepResult.fatal ∧
    watchStep ⟨EventType.Other t, EventObject.status st⟩ = StepResult.skip ∧
    watchStep ⟨EventType.Other t, EventObject.other⟩ = StepResult.skip := by
  refine ⟨rfl, rfl, rfl, ?_, ?_, ?_⟩ <;> simp [watchStep, sendUpdate]

/-- Claim C6: every session started by the reconciliation loop begins with
a freshly allocated empty resumption token and therefore performs a fresh
full `List()`; the token of a terminated session is never resumed. -/
theorem startWatching_fresh_list (regs : List Registry) (tr : SessionTrace)
    (h : tr ∈ runSessions regs) :
    tr.listCalled = true := by
  rw [runSessions] at h
  obtain ⟨reg, _, rfl⟩ := List.mem_map.mp h
  exact watchLoop_empty_listCalled reg

/-- Witness for C6: a one-session run against a registry whose list
returns no services at version 1. -/
theorem startWatching_fresh_list_witness :
    (startWatching ⟨Except.ok ([], "1"), fun _ => Except.ok []⟩ ∈
      runSessions [⟨Except.ok ([], "1"), fun _ => Except.ok []⟩]) ∧
    (startWatching ⟨Except.ok ([], "1"), fun _ => Except.ok []⟩).listCalled = true :=
  ⟨by simp [runSessions],
   startWatching_fresh_list [⟨Except.ok ([], "1"), fun _ => Except.ok []⟩] _
     (by simp [runSessions])⟩

/-- Claim C7: a mutator closure that fails on its first `N` invocations
and succeeds on invocation `N + 1`, with every deadline check up to the
successful attempt happening strictly before the deadline, makes
`mutateEtcdOrDie` return normally after exactly `N + 1` invocations; the
check-time clock `checkTime` accounts the fixed 50 ms delay after every
failing attempt. -/
theorem mutateEtcdOrDie_retries_then_succeeds (d : Nat) (m : Nat → Attempt) (N : Nat)
    (hfail : ∀ i, i < N → (m i).ok = false) (hok : (m N).ok = true)
    (hlt : ∀ i, i ≤ N → checkTime m i < d) :
    mutateEtcdOrDie d m = MutateResult.ok (N + 1) := by
  have := mutateLoop_ok_aux d m N 0 0 (by simpa using hfail) (by simpa using hok)
    (by intro i hi; simpa [checkTime_eq_sumFrom] using hlt i hi)
  simpa [mutateEtcdOrDie] using this

/-- Witness for C7: a mutator failing twice then succeeding, deadline
1000 ms: exactly three invocations and a normal return. -/
theorem mutateEtcdOrDie_retries_then_succeeds_witness :
    ((∀ i, i < 2 → (flakyMutator i).ok = false) ∧
     (flakyMutator 2).ok = true ∧
     (∀ i, i ≤ 2 → checkTime flakyMutator i < 1000)) ∧
    mutateEtcdOrDie 1000 flakyMutator = MutateResult.ok 3 := by
  have h1 : ∀ i, i < 2 → (flakyMutator i).ok = false := by
    intro i hi
    interval_cases i <;> rfl
  have h2 : (flakyMutator 2).ok = true := by rfl
  have h3 : ∀ i, i ≤ 2 → checkTime flakyMutator i < 1000 := by
    intro i hi
    interval_cases i <;> simp [checkTime, flakyMutator]
  exact ⟨⟨h1, h2, h3⟩, mutateEtcdOrDie_retries_then_succeeds 1000 flakyMutator 2 h1 h2 h3⟩

/-- Claim C8: within a session, processed events advance the resumption
token monotonically: for any version measure under which the versions of
the processed service events are non-decreasing from the session's current
token (the registry's version stamps are monotonically increasing), the
whole token trace is non-decreasing — the token is never rolled back.
Skipped events leave the token unchanged and termination ends the trace. -/
theorem resumption_token_monotone (f : String → Nat) (evs : List Event) (rv : String)
    (h : List.Chain' (fun a b => f a ≤ f b) (rv :: serviceVersions evs)) :
    List.Chain' (fun a b => f a ≤ f b) (tokenTrace evs rv) := by
  induction evs generalizing rv with
  | nil => simp [tokenTrace, tokenSteps]
  | cons e rest ih =>
    rw [tokenTrace, tokenSteps]
    cases hs : watchStep e with
    | terminate => simp
    | fatal => simp
    | skip =>
      rw [serviceVersions, hs] at h
      have := ih rv h
      rw [tokenTrace] at this
      exact List.chain'_cons.mpr ⟨Nat.le_refl _, this⟩
    | emit u v =>
      rw [serviceVersions, hs, List.chain'_cons] at h
      have := ih v h.2
      rw [tokenTrace] at this
      exact List.chain'_cons.mpr ⟨h.1, this⟩

/-- Witness for C8: one added service at version 22 processed from token
1, measured by string length. -/
theorem resumption_token_monotone_witness :
    List.Chain' (fun a b => String.length a ≤ String.length b)
      ("1" :: serviceVersions [⟨EventType.Added, EventObject.svc ⟨"a", "d", "ip", 80, "22"⟩⟩]) ∧
    List.Chain' (fun a b => String.length a ≤ String.length b)
      (tokenTrace [⟨EventType.Added, EventObject.svc ⟨"a", "d", "ip", 80, "22"⟩⟩] "1") := by
  have h : List.Chain' (fun a b => String.length a ≤ String.length b)
      ("1" :: serviceVersions [⟨EventType.Added, EventObject.svc ⟨"a", "d", "ip", 80, "22"⟩⟩]) := by
    simp [serviceVersions, watchStep, sendUpdate]
    decide
  exact ⟨h, resumption_token_monotone String.length _ "1" h⟩

/-- Claim C9: a registry event whose type is not `Error` and whose object
is not a service entity is silently skipped: the step emits nothing, the
token trace continues with the token unchanged, and the processed updates,
final token and fatality of the session are exactly those of the remaining
events — no update, no termination, no abort. -/
theorem watchStep_nonerror_nonservice_skips (ev : Event) (rest : List Event) (rv : String)
    (h1 : ev.Type' ≠ EventType.Error) (h2 : ∀ s, ev.Object ≠ EventObject.svc s) :
    watchStep ev = StepResult.skip ∧
    tokenSteps (ev :: rest) rv = rv :: tokenSteps rest rv ∧
    processEvents (ev :: rest) rv = processEvents rest rv := by
  have hw : watchStep ev = StepResult.skip := by
    rw [watchStep, if_neg h1]
    cases ho : ev.Object with
    | status s => rfl
    | svc s => exact absurd ho (h2 s)
    | other => rfl
  exact ⟨hw, by simp [tokenSteps, hw], by simp [processEvents, hw]⟩

/-- Witness for C9: an `Added` event carrying a non-service object, ahead
of an empty remainder. -/
theorem watchStep_nonerror_nonservice_skips_witness :
    (EventType.Added ≠ EventType.Error) ∧
    (∀ s, EventObject.other ≠ EventObject.svc s) ∧
    (watchStep ⟨EventType.Added, EventObject.other⟩ = StepResult.skip ∧
     tokenSteps [⟨EventType.Added, EventObject.other⟩] "1" = "1" :: tokenSteps [] "1" ∧
     processEvents [⟨EventType.Added, EventObject.other⟩] "1" = processEvents [] "1") := by
  refine ⟨by decide, fun s => by simp, ?_⟩
  exact watchStep_nonerror_nonservice_skips ⟨EventType.Added, EventObject.other⟩ [] "1"
    (by decide) (fun s => by simp)

/-- Claim C10: the deadline is checked only at the top of each iteration,
between attempts: if the deadline has already elapsed at a check the loop
dies fatally without invoking the mutator again; if it has not elapsed, a
successful attempt returns normally whatever its duration — a running
attempt is never interrupted; and a zero deadline dies fatally with zero
invocations. -/
theorem mutateEtcdOrDie_deadline_between_attempts (d : Nat) (m : Nat → Attempt) (a t : Nat) :
    (d ≤ t → mutateLoop d m a t = MutateResult.fatal a) ∧
    (t < d → (m a).ok = true → mutateLoop d m a t = MutateResult.ok (a + 1)) ∧
    mutateEtcdOrDie 0 m = MutateResult.fatal 0 := by
  refine ⟨fun h => ?_, fun h1 h2 => ?_, ?_⟩
  · rw [mutateLoop]
    simp [h]
  · rw [mutateLoop]
    simp [Nat.not_le.mpr h1, h2]
  · rw [mutateEtcdOrDie, mutateLoop]
    simp

/-- Witness for C10: an attempt of duration 500 ms starting at 99 ms of a
100 ms deadline still returns normally; at 200 ms elapsed the loop dies
without invoking the mutator; deadline 0 dies with zero invocations. -/
theorem mutateEtcdOrDie_deadline_between_attempts_witness :
    (100 ≤ 200 ∧
     mutateLoop 100 (fun _ => (⟨true, 500⟩ : Attempt)) 0 200 = MutateResult.fatal 0) ∧
    (99 < 100 ∧ ((fun _ => (⟨true, 500⟩ : Attempt)) 0).ok = true ∧
     mutateLoop 100 (fun _ => (⟨true, 500⟩ : Attempt)) 0 99 = MutateResult.ok 1) ∧
    mutateEtcdOrDie 0 (fun _ => (⟨true, 500⟩ : Attempt)) = MutateResult.fatal 0 := by
  refine ⟨⟨by omega, ?_⟩, ⟨by omega, rfl, ?_⟩, ?_⟩
  · exact (mutateEtcdOrDie_deadline_between_attempts 100 (fun _ => ⟨true, 500⟩) 0 200).1
      (by omega)
  · exact ((mutateEtcdOrDie_deadline_between_attempts 100 (fun _ => ⟨true, 500⟩) 0 99).2.1
      (by omega) rfl)
  · exact (mutateEtcdOrDie_deadline_between_attempts 0 (fun _ => ⟨true, 500⟩) 0 0).2.2
